import Mathlib

/-
Verification of the customer replication / anonymization engine (src/app.ts).

The development shallowly embeds the program: pure computations become Lean
functions, the timer-driven Forward Syncer becomes an explicit tick function
on an explicit state (in-memory pointer, in-memory buffer, checkpoint file
contents), and the event-driven Reconciler handlers become functions from
their observed inputs to the reads and writes they issue.  Timestamps are
modelled as Int milliseconds since the epoch; a JavaScript Date value is an
Option Int whose none case is the Invalid Date.  The Mongo store is modelled
as a list of records, with find filters, ascending sort, skip and limit made
explicit.  Definitions come first, then the theorems.
-/

set_option maxRecDepth 1000000

/-! Section: SHA-256, modelling node createHash("sha256") as used by the hex
helper.  The implementation follows FIPS 180-4 over Nat arithmetic, every
32-bit operation reduced mod 2 ^ 32.  A named theorem below checks the
standard test vector for "abc", pinning the model to the real function the
program calls. -/

/-- Reduce a Nat to a 32-bit word value. -/
def w32 (x : Nat) : Nat := x % 4294967296

/-- Rotate a 32-bit word right by n bits. -/
def rotr (n x : Nat) : Nat := w32 ((x >>> n) ||| (x <<< (32 - n)))

/-- Sum function big sigma 0 of the compression rounds. -/
def bigS0 (x : Nat) : Nat := (rotr 2 x) ^^^ (rotr 13 x) ^^^ (rotr 22 x)

/-- Sum function big sigma 1 of the compression rounds. -/
def bigS1 (x : Nat) : Nat := (rotr 6 x) ^^^ (rotr 11 x) ^^^ (rotr 25 x)

/-- Spread function small sigma 0 of the message schedule. -/
def smallS0 (x : Nat) : Nat := (rotr 7 x) ^^^ (rotr 18 x) ^^^ (x >>> 3)

/-- Spread function small sigma 1 of the message schedule. -/
def smallS1 (x : Nat) : Nat := (rotr 17 x) ^^^ (rotr 19 x) ^^^ (x >>> 10)

/-- Round constants of SHA-256 (FIPS 180-4, written in decimal). -/
def sha256K : List Nat :=
  [1116352408, 1899447441, 3049323471, 3921009573, 961987163, 1508970993,
   2453635748, 2870763221, 3624381080, 310598401, 607225278, 1426881987,
   1925078388, 2162078206, 2614888103, 3248222580, 3835390401, 4022224774,
   264347078, 604807628, 770255983, 1249150122, 1555081692, 1996064986,
   2554220882, 2821834349, 2952996808, 3210313671, 3336571891, 3584528711,
   113926993, 338241895, 666307205, 773529912, 1294757372, 1396182291,
   1695183700, 1986661051, 2177026350, 2456956037, 2730485921, 2820302411,
   3259730800, 3345764771, 3516065817, 3600352804, 4094571909, 275423344,
   430227734, 506948616, 659060556, 883997877, 958139571, 1322822218,
   1537002063, 1747873779, 1955562222, 2024104815, 2227730452, 2361852424,
   2428436474, 2756734187, 3204031479, 3329325298]

/-- Working state of the SHA-256 compression function: eight 32-bit words. -/
structure H8 where
  a : Nat
  b : Nat
  c : Nat
  d : Nat
  e : Nat
  f : Nat
  g : Nat
  h : Nat
deriving DecidableEq, Repr

/-- Initial hash value of SHA-256 (FIPS 180-4, written in decimal). -/
def sha256IV : H8 :=
  ⟨1779033703, 3144134277, 1013904242, 2773480762,
   1359893119, 2600822924, 528734635, 1541459225⟩

/-- Append the next message-schedule word. -/
def schedStep (ws : List Nat) : List Nat :=
  let l := ws.length
  let g : Nat → Nat := fun i => ws.getD (l - i) 0
  ws ++ [w32 (smallS1 (g 2) + g 7 + smallS0 (g 15) + g 16)]

/-- Extend a 16-word block to the full 64-word message schedule. -/
def extendSched : Nat → List Nat → List Nat
  | 0, ws => ws
  | n + 1, ws => extendSched n (schedStep ws)

/-- One SHA-256 round: kw pairs the schedule word with the round constant. -/
def roundStep (st : H8) (kw : Nat × Nat) : H8 :=
  let ch := (st.e &&& st.f) ^^^ ((4294967295 - st.e) &&& st.g)
  let maj := (st.a &&& st.b) ^^^ (st.a &&& st.c) ^^^ (st.b &&& st.c)
  let t1 := w32 (st.h + bigS1 st.e + ch + kw.1 + kw.2)
  let t2 := w32 (bigS0 st.a + maj)
  ⟨w32 (t1 + t2), st.a, st.b, st.c, w32 (st.d + t1), st.e, st.f, st.g⟩

/-- Compress one 16-word block into the running hash value. -/
def compressBlock (hv : H8) (block : List Nat) : H8 :=
  let ws := extendSched 48 block
  let st := (sha256K.zip ws).foldl (fun s kw => roundStep s (kw.2, kw.1)) hv
  ⟨w32 (hv.a + st.a), w32 (hv.b + st.b), w32 (hv.c + st.c), w32 (hv.d + st.d),
   w32 (hv.e + st.e), w32 (hv.f + st.f), w32 (hv.g + st.g), w32 (hv.h + st.h)⟩

/-- Big-endian byte expansion of a value into exactly n bytes. -/
def natToBytesBE : Nat → Nat → List Nat
  | 0, _ => []
  | n + 1, v => natToBytesBE n (v / 256) ++ [v % 256]

/-- SHA-256 padding: a 0x80 byte, zeros to 56 mod 64, then the bit length. -/
def padBytes (msg : List Nat) : List Nat :=
  let len := msg.length
  let k := (119 - (len % 64)) % 64
  msg ++ [128] ++ List.replicate k 0 ++ natToBytesBE 8 (8 * len)

/-- Group bytes into big-endian 32-bit words. -/
def bytesToWords : List Nat → List Nat
  | b0 :: b1 :: b2 :: b3 :: rest => (((b0 * 256 + b1) * 256 + b2) * 256 + b3) :: bytesToWords rest
  | _ => []

/-- Fold the compression function over consecutive 16-word blocks. -/
def sha256Blocks : H8 → List Nat → H8
  | hv, w0 :: w1 :: w2 :: w3 :: w4 :: w5 :: w6 :: w7 ::
        w8 :: w9 :: w10 :: w11 :: w12 :: w13 :: w14 :: w15 :: rest =>
      sha256Blocks
        (compressBlock hv [w0, w1, w2, w3, w4, w5, w6, w7, w8, w9, w10, w11, w12, w13, w14, w15])
        rest
  | hv, _ => hv

/-- Full SHA-256 over a byte sequence. -/
def sha256Core (msg : List Nat) : H8 :=
  sha256Blocks sha256IV (bytesToWords (padBytes msg))

/-- Digest as 32 bytes. -/
def digestBytes (msg : List Nat) : List Nat :=
  let hv := sha256Core msg
  natToBytesBE 4 hv.a ++ natToBytesBE 4 hv.b ++ natToBytesBE 4 hv.c ++ natToBytesBE 4 hv.d ++
  natToBytesBE 4 hv.e ++ natToBytesBE 4 hv.f ++ natToBytesBE 4 hv.g ++ natToBytesBE 4 hv.h

/-- Lowercase hexadecimal digit character for a nibble. -/
def hexDigitChar (n : Nat) : Char :=
  if n < 10 then Char.ofNat (48 + n) else Char.ofNat (87 + n)

/-- Two lowercase hex characters of one byte. -/
def byteToHex (b : Nat) : List Char := [hexDigitChar (b / 16), hexDigitChar (b % 16)]

/-- UTF-8 encoding of one character, as node hash.update applies to strings. -/
def encodeCharUtf8 (c : Char) : List Nat :=
  let n := c.toNat
  if n < 128 then [n]
  else if n < 2048 then [192 ||| (n >>> 6), 128 ||| (n &&& 63)]
  else if n < 65536 then [224 ||| (n >>> 12), 128 ||| ((n >>> 6) &&& 63), 128 ||| (n &&& 63)]
  else [240 ||| (n >>> 18), 128 ||| ((n >>> 12) &&& 63), 128 ||| ((n >>> 6) &&& 63), 128 ||| (n &&& 63)]

/-- UTF-8 bytes of a string. -/
def utf8Bytes (s : String) : List Nat := (s.toList.map encodeCharUtf8).flatten

/-- Character list of digest("hex") of a string: 64 lowercase hex characters. -/
def sha256HexChars (s : String) : List Char := ((digestBytes (utf8Bytes s)).map byteToHex).flatten

/-- Embeds hex from src/app.ts lines 69-73: createHash("sha256"), update with
the value, hex digest, then slice(0, 8), that is the first 8 characters. -/
def hex (value : String) : String := ⟨(sha256HexChars value).take 8⟩

/-- Recognizes a lowercase hexadecimal digit character. -/
def isLowerHexDigit (ch : Char) : Bool :=
  decide ((48 ≤ ch.toNat ∧ ch.toNat ≤ 57) ∨ (97 ≤ ch.toNat ∧ ch.toNat ≤ 102))

/-- Recognizes a string made only of lowercase hexadecimal digits. -/
def isLowerHexString (s : String) : Bool := s.toList.all isLowerHexDigit

/-! Section: data model.

Modelled from the spec: the Customer record shape.  The file
src/declarations.ts that declares it is not part of src/, so the fields are
taken from section 3 of the spec (identity id, first name, last name, email,
postal address with line1, line2, postcode, city, state, country, and a
creation timestamp) and match every field access src/app.ts performs. -/

/-- Postal address part of a customer record. -/
structure Address where
  line1 : String
  line2 : String
  postcode : String
  city : String
  state : String
  country : String
deriving DecidableEq, Repr

/-- Customer record: the shape shared by source and target collections.
Timestamps are Int milliseconds; the store-assigned identity id is a Nat. -/
structure Customer where
  _id : Nat
  firstName : String
  lastName : String
  email : String
  address : Address
  createdAt : Int
deriving DecidableEq, Repr

/-! Section: the Anonymizer (src/app.ts lines 75-84). -/

/-- Models String.prototype.split with separator "@": splits at every at-sign,
keeping empty segments; the result is never the empty list. -/
def splitAtAux : List Char → List Char → List (List Char)
  | [], acc => [acc.reverse]
  | ch :: rest, acc =>
      if ch = '@' then acc.reverse :: splitAtAux rest [] else splitAtAux rest (ch :: acc)

/-- JavaScript email.split("@") for the at-sign separator. -/
def jsSplitAtSign (s : String) : List String := (splitAtAux s.toList []).map (fun l => ⟨l⟩)

/-- Models template-literal interpolation of a value that may be undefined:
JavaScript coerces undefined to the string "undefined". -/
def jsStringOfUndefinable : Option String → String
  | some s => s
  | none => "undefined"

/-- Embeds anonymizeCustomer (src/app.ts lines 75-84) as a value transform.
The TS body reassigns firstName, lastName, email, address.line1,
address.line2 and address.postcode on its argument object and ends with
return customer; this function computes the field values that object holds
after the call.  The destructuring const [loginPart, hostPart] of the split
result binds hostPart to undefined when there is no at-sign (no throw), and
to the segment between the first and second at-sign when there are several. -/
def anonymizeCustomer (customer : Customer) : Customer :=
  let customer := { customer with firstName := hex customer.firstName }
  let customer := { customer with lastName := hex customer.lastName }
  let parts := jsSplitAtSign customer.email
  let loginPart := parts.headD ""
  let hostPart := parts[1]?
  let customer := { customer with email := hex loginPart ++ "@" ++ jsStringOfUndefinable hostPart }
  let customer := { customer with address := { customer.address with line1 := hex customer.address.line1 } }
  let customer := { customer with address := { customer.address with line2 := hex customer.address.line2 } }
  let customer := { customer with address := { customer.address with postcode := hex customer.address.postcode } }
  customer

/-- Observable effect of one call to anonymizeCustomer: the value of the
returned object and the value the caller-supplied argument object holds
after the call.  In the TS source the scrubbed fields are assigned onto the
argument itself and the same object is returned, so the two components
coincide. -/
structure AnonymizeEffect where
  returned : Customer
  argumentAfterCall : Customer
deriving DecidableEq, Repr

/-- State-passing embedding of one anonymizeCustomer call. -/
def anonymizeCustomerCall (customer : Customer) : AnonymizeEffect :=
  { returned := anonymizeCustomer customer, argumentAfterCall := anonymizeCustomer customer }

/-- Exception-aware embedding of one anonymizeCustomer call.  Every operation
in the TS body is non-throwing: split never throws, destructuring a short
array binds undefined, template interpolation coerces undefined to a string,
hashing and property assignment are total; hence the call always returns. -/
def anonymizeCustomerE (customer : Customer) : Except String Customer :=
  Except.ok (anonymizeCustomer customer)

/-- Spec-side reading of the local part of an email: the substring before the
first at-sign. -/
def specLocalPart (s : String) : String := ⟨s.toList.takeWhile (fun ch => ch != '@')⟩

/-- Spec-side reading of the domain part of an email: everything after the
first at-sign. -/
def specDomainPart (s : String) : String := ⟨(s.toList.dropWhile (fun ch => ch != '@')).drop 1⟩

/-! Section: concrete records used by witnesses and counterexamples. -/

/-- Sample postal address (line1 and line2 mirror the generator constants). -/
def sampleAddress : Address :=
  { line1 := "34801 Kurt Spur", line2 := "Suite 028", postcode := "12345",
    city := "Springfield", state := "IL", country := "US" }

/-- Sample customer with a well-formed email, creation timestamp T0. -/
def janeRec : Customer :=
  { _id := 1, firstName := "Jane", lastName := "Doe", email := "jane.doe@example.com",
    address := sampleAddress, createdAt := 1700000000000 }

/-- Customer whose email contains two at-signs. -/
def multiAtRec : Customer := { janeRec with _id := 2, email := "a@b@c" }

/-- Customer whose email contains no at-sign. -/
def noAtRec : Customer := { janeRec with _id := 3, email := "nodomain" }

/-! Section: dates, the checkpoint file and the Mongo store model.

A JavaScript Date is Option Int: some t is a valid date with epoch
milliseconds t, none is the Invalid Date (NaN time value).  The checkpoint
file POINTER_STORE is Option JSDate: none when the file is absent, some d
when it exists and its contents parse to the date d (some none for contents
that do not parse as a timestamp).  A query filter built from a Date goes
through the node mongodb/bson serializer, which writes the getTime() value
with Long.fromNumber; Long.fromNumber of the NaN time value of an Invalid
Date is 0, so an Invalid Date reaches the store as the epoch-0 datetime and
the filter createdAt gt pointer selects every record created after 1970. -/

/-- JavaScript Date value: epoch milliseconds, or none for the Invalid Date. -/
abbrev JSDate := Option Int

/-- Datetime value the bson serializer sends for a Date in a query: the
getTime() milliseconds, with the NaN time value of an Invalid Date turned
into 0 by Long.fromNumber. -/
def bsonDateMillis (p : JSDate) : Int :=
  match p with
  | some v => v
  | none => 0

/-- Truth of createdAt gt pointer in the find filter of Pursuer.loop and of
fullReindex, after bson serialization of the pointer: an Invalid Date
compares as the epoch-0 datetime. -/
def mongoGtDate (t : Int) (p : JSDate) : Bool := decide (bsonDateMillis p < t)

/-- Ascending order on creation timestamps, the sort key of every query. -/
def byCreatedAt (a b : Customer) : Prop := a.createdAt ≤ b.createdAt

instance : DecidableRel byCreatedAt := fun a b => Int.decLe a.createdAt b.createdAt

instance : IsTotal Customer byCreatedAt := ⟨fun a b => Int.le_total a.createdAt b.createdAt⟩

instance : IsTrans Customer byCreatedAt := ⟨fun _ _ _ h1 h2 => le_trans h1 h2⟩

/-- Models sort(createdAt ascending) on a query result. -/
def sortByCreatedAt (l : List Customer) : List Customer := l.insertionSort byCreatedAt

/-- Models findOne with sort createdAt ascending: the oldest record. -/
def oldestByCreatedAt (source : List Customer) : Option Customer :=
  (sortByCreatedAt source).head?

/-- Models cursor.limit(n) in Mongo semantics: limit 0 means no limit, a
negative limit acts as its absolute value. -/
def mongoLimit (lim : Int) (l : List Customer) : List Customer :=
  if lim = 0 then l else l.take lim.natAbs

/-- Embeds the fetch of Pursuer.loop (src/app.ts lines 247-251): find records
with createdAt strictly greater than the pointer, sort ascending by
createdAt, then apply skip(buffered) and limit(window - buffered); Mongo
applies skip before limit whatever the call order. -/
def mongoFetch (source : List Customer) (p : JSDate) (window bufLen : Nat) : List Customer :=
  mongoLimit ((window : Int) - (bufLen : Int))
    ((sortByCreatedAt (source.filter (fun c => mongoGtDate c.createdAt p))).drop bufLen)

/-- Embeds Pursuer.loadPointer (src/app.ts lines 218-234).  With the file
present the parsed contents become the pointer unchanged; with the file
absent the pointer is the oldest source creation timestamp, or the current
time for an empty source, minus 60 seconds in both cases (the subtraction
sits after the fallback, outside any branch on emptiness). -/
def loadPointer (file : Option JSDate) (source : List Customer) (now : Int) : JSDate :=
  match file with
  | some parsed => parsed
  | none =>
      let base : Int :=
        match oldestByCreatedAt source with
        | some c => c.createdAt
        | none => now
      some (base - 60000)

/-- Observable state across Forward Syncer ticks: the in-memory pointer
(none when the field is unset), the in-memory buffer, and the checkpoint
file contents. -/
structure SyncState where
  pointer : Option JSDate
  buffer : List Customer
  file : Option JSDate
deriving DecidableEq, Repr

/-- Environment of one tick: the lock observation, the source collection
contents, and the current time. -/
structure TickIn where
  locked : Bool
  source : List Customer
  now : Int
deriving DecidableEq, Repr

/-- Everything one tick does: the state it leaves, the records handed to
insertMany on the target, the value written to the checkpoint file (none
when no write happens), the records the source query returned, and whether
the flush branch ran. -/
structure TickOut where
  state : SyncState
  inserted : List Customer
  stored : Option Int
  fetched : List Customer
  flushed : Bool
deriving DecidableEq, Repr

/-- Pointer value the tick works with: the in-memory pointer if set,
otherwise the result of loadPointer (src/app.ts line 243). -/
def resolvedPointer (i : TickIn) (s : SyncState) : JSDate :=
  match s.pointer with
  | some p => p
  | none => loadPointer s.file i.source i.now

/-- Buffer contents after the fetch-and-anonymize loop of the tick. -/
def bufferAfterFetch (window : Nat) (i : TickIn) (s : SyncState) : List Customer :=
  s.buffer ++ (mongoFetch i.source (resolvedPointer i s) window s.buffer.length).map anonymizeCustomer

/-- Embeds one Forward Syncer tick: the setInterval body of Pursuer.run
(src/app.ts lines 269-278) together with Pursuer.loop (lines 242-267) and
storePointer (lines 236-240).  A locked tick only discards the in-memory
pointer.  An unlocked tick resolves the pointer, fetches, buffers the
anonymized records, and flushes when the buffer length equals the window or
the buffer was non-empty at the start of the tick; the flush inserts the
buffer, moves the pointer to the createdAt of the last buffered record (or
keeps it for an empty buffer), writes the pointer to the file (storePointer
throws on an Invalid Date pointer inside a floating promise, so no write
happens then), and clears the buffer. -/
def pursuerTick (window : Nat) (i : TickIn) (s : SyncState) : TickOut :=
  if i.locked then
    { state := { s with pointer := none }, inserted := [], stored := none,
      fetched := [], flushed := false }
  else
    let ptr := resolvedPointer i s
    let fetched := mongoFetch i.source ptr window s.buffer.length
    let buffer := s.buffer ++ fetched.map anonymizeCustomer
    if buffer.length == window || !s.buffer.isEmpty then
      let newPtr : JSDate :=
        match buffer.getLast? with
        | some last => some last.createdAt
        | none => ptr
      let write : Option Int :=
        match newPtr with
        | some t => some t
        | none => none
      { state := { pointer := some newPtr, buffer := [],
                   file := match write with | some t => some (some t) | none => s.file },
        inserted := buffer, stored := write, fetched := fetched, flushed := true }
    else
      { state := { s with pointer := some ptr, buffer := buffer }, inserted := [],
        stored := none, fetched := fetched, flushed := false }

/-- Accumulated result of a run of consecutive ticks. -/
structure RunOut where
  state : SyncState
  stored : List Int
  inserted : List Customer
deriving DecidableEq, Repr

/-- Runs the Forward Syncer over a list of tick environments, collecting the
checkpoint writes and the target inserts in order. -/
def runTicks (window : Nat) : List TickIn → SyncState → RunOut
  | [], s => { state := s, stored := [], inserted := [] }
  | i :: rest, s =>
      let o := pursuerTick window i s
      let r := runTicks window rest o.state
      { state := r.state, stored := o.stored.toList ++ r.stored,
        inserted := o.inserted ++ r.inserted }

/-- Invariant tying a Forward Syncer state to the last checkpoint write of
the run (none before the first write): the file holds exactly the last
written value, the in-memory pointer is either discarded or equal to it, and
every buffered record is strictly newer.  The runs considered have no
concurrent writer of the checkpoint file, matching the spec statement that
the Checkpoint Store is never mutated concurrently. -/
def pursuerInv (s : SyncState) : Option Int → Prop
  | none => True
  | some w => s.file = some (some w)
      ∧ (s.pointer = none ∨ s.pointer = some (some w))
      ∧ ∀ c ∈ s.buffer, w < c.createdAt

/-! Section: the Reconciler (Updater, src/app.ts lines 141-201). -/

/-- Step the run method takes (src/app.ts lines 191-200): a 3 second backoff
retry while the lock is held, otherwise building the target stream. -/
inductive UpdaterStep
  | backoff3s
  | buildStream
deriving DecidableEq, Repr

/-- Embeds Updater.run. -/
def updaterRun (locked : Bool) : UpdaterStep :=
  if locked then UpdaterStep.backoff3s else UpdaterStep.buildStream

/-- Models findOne by identity id on the source collection. -/
def findOneById (source : List Customer) (i : Nat) : Option Customer :=
  source.find? (fun c => c._id = i)

/-- Reads and writes one Reconciler data event issues, plus whether the
cursor was closed and a backoff retry of run was scheduled. -/
structure UpdaterDataOut where
  reads : List Nat
  writes : List (Nat × Customer)
  cursorClosed : Bool
  backoffScheduled : Bool
deriving DecidableEq, Repr

/-- Embeds Updater.onData (src/app.ts lines 178-189): look up the source
record by id; skip when absent; recompute the anonymized form; skip when it
deep-equals the current target record; otherwise updateOne the target. -/
def updaterOnData (source : List Customer) (targetCustomer : Customer) : UpdaterDataOut :=
  match findOneById source targetCustomer._id with
  | none =>
      { reads := [targetCustomer._id], writes := [], cursorClosed := false,
        backoffScheduled := false }
  | some sourceCustomer =>
      let newTargetCustomer := anonymizeCustomer sourceCustomer
      if targetCustomer = newTargetCustomer then
        { reads := [targetCustomer._id], writes := [], cursorClosed := false,
          backoffScheduled := false }
      else
        { reads := [targetCustomer._id],
          writes := [(targetCustomer._id, newTargetCustomer)], cursorClosed := false,
          backoffScheduled := false }

/-- Embeds the stream data handler of Updater.buildStream (src/app.ts lines
160-167): with the lock observed held it closes the cursor and re-enters
run, which under the held lock schedules the 3 second backoff and issues no
read or write; otherwise it processes the record through onData. -/
def updaterHandleData (locked : Bool) (source : List Customer) (targetCustomer : Customer) :
    UpdaterDataOut :=
  if locked then
    { reads := [], writes := [], cursorClosed := true, backoffScheduled := true }
  else
    updaterOnData source targetCustomer

/-! Section: startup mode selection and the full reindex invocation
(src/app.ts lines 281-304). -/

/-- Run mode the startup branch selects. -/
inductive StartMode
  | runFullReindex
  | runContinuous
deriving DecidableEq, Repr

/-- Embeds the branch at src/app.ts line 290: the full reindex runs exactly
when the flag is present and the lock file does not exist; every other
combination falls into the else branch that starts Pursuer and Updater. -/
def chooseMode (hasReindexFlag lockHeld : Bool) : StartMode :=
  if hasReindexFlag && !lockHeld then StartMode.runFullReindex else StartMode.runContinuous

/-- Whether the selected branch terminates the process by itself: the full
reindex branch ends in process.exit(0); the continuous branch installs a
repeating timer and stream callbacks and never exits. -/
def modeExitsProcess : StartMode → Bool
  | StartMode.runFullReindex => true
  | StartMode.runContinuous => false

/-- Process state when the full reindex invocation ends. -/
structure ReindexProcessEnd where
  lockHeldAtEnd : Bool
  exitCode : Nat
deriving DecidableEq, Repr

/-- Embeds the full reindex invocation path (src/app.ts lines 291-294):
lockfile.lockSync, then await fullReindex, then lockfile.unlockSync and
process.exit(0), with no try or finally around the await.  When fullReindex
resolves, the lock is released and the process exits with code 0.  When it
rejects, control never reaches unlockSync; the rejection propagates out of
run() into the final catch(console.debug) at line 306, which logs it, and
the process then exits normally (code 0) with the lock file still present. -/
def fullReindexInvocation (phases : Except String Unit) : ReindexProcessEnd :=
  match phases with
  | Except.ok _ => { lockHeldAtEnd := false, exitCode := 0 }
  | Except.error _ => { lockHeldAtEnd := true, exitCode := 0 }

/-! Section: the two-tick scenario of the spec (one source record, no
checkpoint file, no lock). -/

/-- Fresh Forward Syncer state at process start: no in-memory pointer, empty
buffer, and no checkpoint file on disk. -/
def freshStart : SyncState := { pointer := none, buffer := [], file := none }

/-- Tick environment of the scenario: lock not held, one source record. -/
def scenarioIn : TickIn := { locked := false, source := [janeRec], now := 1700000100000 }

/-- First scenario tick, from the fresh state with the default window 1000. -/
def tick1 : TickOut := pursuerTick 1000 scenarioIn freshStart

/-- Second scenario tick, continuing from the state the first tick left. -/
def tick2 : TickOut := pursuerTick 1000 scenarioIn tick1.state

/-! Section: theorems.  First the pins of the hash model, then generic
lemmas, then the claim theorems with their witnesses and counterexamples. -/

/-- Pin of the SHA-256 model to the FIPS 180-4 test vector for "abc". -/
theorem sha256_model_abc_vector :
    (⟨sha256HexChars "abc"⟩ : String)
      = "ba7816bf8f01cfea414140de5dae2223b00361a396177a9cb410ff61f20015ad" := by
  decide

/-- Pin of the truncating hex helper on the same vector. -/
theorem hex_abc_vector : hex "abc" = "ba7816bf" := by decide

theorem natToBytesBE_length (n : Nat) : ∀ v, (natToBytesBE n v).length = n := by
  induction n with
  | zero => intro v; rfl
  | succ m ih => intro v; simp [natToBytesBE, ih]

theorem natToBytesBE_lt (n : Nat) : ∀ v, ∀ b ∈ natToBytesBE n v, b < 256 := by
  induction n with
  | zero => intro v b hb; simp [natToBytesBE] at hb
  | succ m ih =>
      intro v b hb
      simp only [natToBytesBE, List.mem_append, List.mem_singleton] at hb
      rcases hb with h | h
      · exact ih _ b h
      · subst h; exact Nat.mod_lt _ (by norm_num)

theorem digestBytes_length (m : List Nat) : (digestBytes m).length = 32 := by
  simp [digestBytes, natToBytesBE_length]

theorem digestBytes_lt (m : List Nat) : ∀ b ∈ digestBytes m, b < 256 := by
  intro b hb
  simp only [digestBytes, List.mem_append] at hb
  rcases hb with ((((((h | h) | h) | h) | h) | h) | h) | h <;> exact natToBytesBE_lt 4 _ b h

theorem flatten_byteToHex_length (bs : List Nat) :
    ((bs.map byteToHex).flatten).length = 2 * bs.length := by
  induction bs with
  | nil => rfl
  | cons b t ih => simp [byteToHex, ih]; omega

theorem sha256HexChars_length (s : String) : (sha256HexChars s).length = 64 := by
  unfold sha256HexChars
  rw [flatten_byteToHex_length, digestBytes_length]

theorem hexDigitChar_isLowerHex : ∀ n, n < 16 → isLowerHexDigit (hexDigitChar n) = true := by
  decide

theorem byteToHex_isLowerHex (b : Nat) (hb : b < 256) :
    ∀ ch ∈ byteToHex b, isLowerHexDigit ch = true := by
  intro ch hch
  have hdiv : b / 16 < 16 := by omega
  have hmod : b % 16 < 16 := Nat.mod_lt _ (by norm_num)
  simp only [byteToHex, List.mem_cons, List.not_mem_nil, or_false] at hch
  rcases hch with h | h
  · subst h; exact hexDigitChar_isLowerHex _ hdiv
  · subst h; exact hexDigitChar_isLowerHex _ hmod

theorem hex_length (s : String) : (hex s).length = 8 := by
  show (List.take 8 (sha256HexChars s)).length = 8
  rw [List.length_take, sha256HexChars_length]
  omega

theorem hex_isLowerHexString (s : String) : isLowerHexString (hex s) = true := by
  show (List.take 8 (sha256HexChars s)).all isLowerHexDigit = true
  rw [List.all_eq_true]
  intro ch hch
  have hmem : ch ∈ sha256HexChars s := List.take_subset 8 _ hch
  simp only [sha256HexChars, List.mem_flatten, List.mem_map] at hmem
  obtain ⟨cs, ⟨b, hb, rfl⟩, hin⟩ := hmem
  exact byteToHex_isLowerHex b (digestBytes_lt _ b hb) ch hin

/-! Section: helper lemmas about the store and syncer model. -/

theorem anonymizeCustomer_createdAt (c : Customer) :
    (anonymizeCustomer c).createdAt = c.createdAt := rfl

theorem anonymizeCustomer_id (c : Customer) : (anonymizeCustomer c)._id = c._id := rfl

theorem getLast?_mem_self {α : Type} {l : List α} {a : α} (h : l.getLast? = some a) : a ∈ l := by
  obtain ⟨hne, heq⟩ := List.mem_getLast?_eq_getLast (show a ∈ l.getLast? from h)
  exact heq ▸ List.getLast_mem hne

theorem mongoLimit_subset (lim : Int) (l : List Customer) : mongoLimit lim l ⊆ l := by
  unfold mongoLimit
  split
  · exact fun x hx => hx
  · exact List.take_subset _ _

theorem mongoFetch_gt (source : List Customer) (p : JSDate) (window bufLen : Nat) :
    ∀ c ∈ mongoFetch source p window bufLen, mongoGtDate c.createdAt p = true := by
  intro c hc
  have h2 : c ∈ sortByCreatedAt (source.filter (fun x => mongoGtDate x.createdAt p)) :=
    List.drop_subset _ _ (mongoLimit_subset _ _ hc)
  have h3 : c ∈ source.filter (fun x => mongoGtDate x.createdAt p) := by
    simpa [sortByCreatedAt] using h2
  exact (List.mem_filter.mp h3).2

theorem oldestByCreatedAt_min (source : List Customer) (c : Customer)
    (h : oldestByCreatedAt source = some c) : ∀ d ∈ source, c.createdAt ≤ d.createdAt := by
  intro d hd
  unfold oldestByCreatedAt at h
  cases hs : sortByCreatedAt source with
  | nil => rw [hs] at h; simp at h
  | cons a t =>
      rw [hs] at h
      simp at h
      subst h
      have hsort : List.Sorted byCreatedAt (sortByCreatedAt source) :=
        List.sorted_insertionSort byCreatedAt source
      rw [hs] at hsort
      have hmem : d ∈ sortByCreatedAt source := by simpa [sortByCreatedAt] using hd
      rw [hs] at hmem
      rcases List.mem_cons.mp hmem with rfl | hmem2
      · exact le_refl _
      · exact (List.sorted_cons.mp hsort).1 d hmem2

/-- Characterization of a locked tick. -/
theorem pursuerTick_locked (window : Nat) (i : TickIn) (s : SyncState)
    (hlock : i.locked = true) :
    pursuerTick window i s
      = { state := { s with pointer := none }, inserted := [], stored := none,
          fetched := [], flushed := false } := by
  simp [pursuerTick, hlock]

/-- Characterization of an unlocked tick whose flush condition holds. -/
theorem pursuerTick_unlocked_flush (window : Nat) (i : TickIn) (s : SyncState)
    (hlock : i.locked = false) (last : Customer)
    (hB : ((bufferAfterFetch window i s).length == window || !s.buffer.isEmpty) = true)
    (hlast : (bufferAfterFetch window i s).getLast? = some last) :
    pursuerTick window i s
      = { state := { pointer := some (some last.createdAt), buffer := [],
                     file := some (some last.createdAt) },
          inserted := bufferAfterFetch window i s,
          stored := some last.createdAt,
          fetched := mongoFetch i.source (resolvedPointer i s) window s.buffer.length,
          flushed := true } := by
  simp only [bufferAfterFetch] at hB hlast
  simp only [pursuerTick, hlock, Bool.false_eq_true, if_false]
  rw [hB, if_pos rfl, hlast]
  rfl

/-- Characterization of an unlocked tick whose flush condition fails. -/
theorem pursuerTick_unlocked_noflush (window : Nat) (i : TickIn) (s : SyncState)
    (hlock : i.locked = false)
    (hB : ((bufferAfterFetch window i s).length == window || !s.buffer.isEmpty) = false) :
    pursuerTick window i s
      = { state := { s with
                       pointer := some (resolvedPointer i s),
                       buffer := bufferAfterFetch window i s },
          inserted := [], stored := none,
          fetched := mongoFetch i.source (resolvedPointer i s) window s.buffer.length,
          flushed := false } := by
  simp only [bufferAfterFetch] at hB ⊢
  simp only [pursuerTick, hlock, Bool.false_eq_true, if_false]
  rw [hB]
  simp

/-- Work horse for the flush-condition claim: the condition characterization
and the flush effects on one unlocked tick. -/
theorem c7_general (window : Nat) (i : TickIn) (s : SyncState)
    (hlock : i.locked = false) (hw : 1 ≤ window) :
    (((pursuerTick window i s).flushed = true)
       ↔ ((bufferAfterFetch window i s).length = window ∨ s.buffer ≠ []))
    ∧ ((pursuerTick window i s).flushed = true →
         (pursuerTick window i s).inserted = bufferAfterFetch window i s
         ∧ (pursuerTick window i s).state.buffer = []
         ∧ ∃ last : Customer,
             (bufferAfterFetch window i s).getLast? = some last
             ∧ (pursuerTick window i s).stored = some last.createdAt
             ∧ (pursuerTick window i s).state.pointer = some (some last.createdAt)
             ∧ (pursuerTick window i s).state.file = some (some last.createdAt)) := by
  cases hB : ((bufferAfterFetch window i s).length == window || !s.buffer.isEmpty) with
  | true =>
      have hcond : (bufferAfterFetch window i s).length = window ∨ s.buffer ≠ [] := by
        rcases Bool.or_eq_true_iff.mp hB with h | h
        · exact Or.inl (by simpa using h)
        · exact Or.inr (by simpa [List.isEmpty_iff] using h)
      have hne : bufferAfterFetch window i s ≠ [] := by
        rcases hcond with hlen | hnb
        · intro hnil
          rw [hnil] at hlen
          simp at hlen
          omega
        · intro hnil
          obtain ⟨h1, h2⟩ := List.append_eq_nil.mp (by simpa [bufferAfterFetch] using hnil)
          exact hnb h1
      obtain ⟨last, hlast⟩ : ∃ last, (bufferAfterFetch window i s).getLast? = some last := by
        cases hl : (bufferAfterFetch window i s).getLast? with
        | none => exact absurd (List.getLast?_eq_none_iff.mp hl) hne
        | some a => exact ⟨a, rfl⟩
      rw [pursuerTick_unlocked_flush window i s hlock last hB hlast]
      exact ⟨⟨fun _ => hcond, fun _ => rfl⟩, fun _ => ⟨rfl, rfl, last, hlast, rfl, rfl, rfl⟩⟩
  | false =>
      have hcond : ¬((bufferAfterFetch window i s).length = window ∨ s.buffer ≠ []) := by
        obtain ⟨h1, h2⟩ := Bool.or_eq_false_iff.mp hB
        intro h
        rcases h with h | h
        · rw [h] at h1
          simp at h1
        · rw [Bool.not_eq_false'] at h2
          exact h (List.isEmpty_iff.mp h2)
      rw [pursuerTick_unlocked_noflush window i s hlock hB]
      exact ⟨⟨fun h => (Bool.false_ne_true h).elim, fun h => (hcond h).elim⟩,
             fun h => (Bool.false_ne_true h).elim⟩

/-- The resolved pointer of a tick equals the last stored value under the
run invariant. -/
theorem resolvedPointer_of_inv (i : TickIn) (s : SyncState) (w : Int)
    (hf : s.file = some (some w)) (hp : s.pointer = none ∨ s.pointer = some (some w)) :
    resolvedPointer i s = some w := by
  rcases hp with hp | hp
  · simp [resolvedPointer, hp, loadPointer, hf]
  · simp [resolvedPointer, hp]

/-- Every record buffered after the fetch is strictly newer than the pointer
value the tick resolved, given the old buffer already was. -/
theorem bufferAfterFetch_gt (window : Nat) (i : TickIn) (s : SyncState) (w : Int)
    (hptr : resolvedPointer i s = some w) (hb : ∀ c ∈ s.buffer, w < c.createdAt) :
    ∀ c ∈ bufferAfterFetch window i s, w < c.createdAt := by
  intro c hc
  rcases List.mem_append.mp hc with h | h
  · exact hb c h
  · obtain ⟨d, hd, rfl⟩ := List.mem_map.mp h
    have hgt := mongoFetch_gt i.source (resolvedPointer i s) window s.buffer.length d hd
    rw [hptr] at hgt
    simp only [mongoGtDate, bsonDateMillis, decide_eq_true_eq] at hgt
    simpa [anonymizeCustomer_createdAt] using hgt

/-- One tick preserves the run invariant; a checkpoint write, when it
happens, strictly exceeds the previous stored value. -/
theorem pursuerTick_mono (window : Nat) (hw : 1 ≤ window) (i : TickIn) (s : SyncState)
    (lastW : Option Int) (hInv : pursuerInv s lastW) :
    ((pursuerTick window i s).stored = none ∧ pursuerInv (pursuerTick window i s).state lastW)
    ∨ (∃ w2, (pursuerTick window i s).stored = some w2
        ∧ (∀ w, lastW = some w → w < w2)
        ∧ pursuerInv (pursuerTick window i s).state (some w2)) := by
  cases hl : i.locked with
  | true =>
      left
      rw [pursuerTick_locked window i s hl]
      refine ⟨rfl, ?_⟩
      cases lastW with
      | none => trivial
      | some w =>
          obtain ⟨hf, hp, hb⟩ := hInv
          exact ⟨hf, Or.inl rfl, hb⟩
  | false =>
      cases hB : ((bufferAfterFetch window i s).length == window || !s.buffer.isEmpty) with
      | false =>
          left
          rw [pursuerTick_unlocked_noflush window i s hl hB]
          refine ⟨rfl, ?_⟩
          cases lastW with
          | none => trivial
          | some w =>
              obtain ⟨hf, hp, hb⟩ := hInv
              have hptr := resolvedPointer_of_inv i s w hf hp
              exact ⟨hf, Or.inr (by rw [hptr]), bufferAfterFetch_gt window i s w hptr hb⟩
      | true =>
          have hne : bufferAfterFetch window i s ≠ [] := by
            rcases Bool.or_eq_true_iff.mp hB with h | h
            · intro hnil
              rw [hnil] at h
              simp at h
              omega
            · intro hnil
              obtain ⟨h1, h2⟩ := List.append_eq_nil.mp (by simpa [bufferAfterFetch] using hnil)
              simp [List.isEmpty_iff, h1] at h
          obtain ⟨last, hlast⟩ : ∃ last, (bufferAfterFetch window i s).getLast? = some last := by
            cases hl2 : (bufferAfterFetch window i s).getLast? with
            | none => exact absurd (List.getLast?_eq_none_iff.mp hl2) hne
            | some a => exact ⟨a, rfl⟩
          right
          rw [pursuerTick_unlocked_flush window i s hl last hB hlast]
          refine ⟨last.createdAt, rfl, ?_, rfl, Or.inr rfl, by simp⟩
          intro w hw0
          subst hw0
          obtain ⟨hf, hp, hb⟩ := hInv
          have hptr := resolvedPointer_of_inv i s w hf hp
          exact bufferAfterFetch_gt window i s w hptr hb last (getLast?_mem_self hlast)

/-- The checkpoint writes of a run, prefixed with the last write before it,
form a strictly increasing chain under the run invariant. -/
theorem runTicks_chain (window : Nat) (hw : 1 ≤ window) :
    ∀ (is : List TickIn) (s : SyncState) (lastW : Option Int), pursuerInv s lastW →
      List.Chain' (fun a b => a < b) (lastW.toList ++ (runTicks window is s).stored) := by
  intro is
  induction is with
  | nil =>
      intro s lastW hInv
      cases lastW with
      | none => simp [runTicks]
      | some w => simp [runTicks]
  | cons i rest ih =>
      intro s lastW hInv
      rcases pursuerTick_mono window hw i s lastW hInv with ⟨hst, hInv2⟩ | ⟨w2, hst, hgt, hInv2⟩
      · have := ih _ lastW hInv2
        simpa [runTicks, hst] using this
      · have hch := ih _ (some w2) hInv2
        cases lastW with
        | none =>
            simpa [runTicks, hst] using hch
        | some w =>
            simp only [runTicks, hst, Option.toList_some, List.singleton_append,
              List.cons_append, List.nil_append] at hch ⊢
            rw [List.chain'_cons]
            exact ⟨hgt w rfl, hch⟩

/-! Section: claim C1. -/

/-- C1, counterexample: the claim says a full-reindex startup with the lock
already held exits immediately; on the code the guard at src/app.ts line 290
is flag AND not locked, so flag with lock held falls into the else branch
that starts the continuous mode, which installs a timer and stream callbacks
and never exits. -/
theorem c1_counterexample_lock_held_starts_continuous :
    chooseMode true true = StartMode.runContinuous
    ∧ modeExitsProcess (chooseMode true true) = false := by
  decide

/-- C1, amended: with the full-reindex flag present and the lock already
held, the process does not run the reindex and does not exit: it starts the
continuous mode instead; for as long as the lock is observed held, the
Forward Syncer ticks perform no fetch, no insert and no checkpoint write,
and the Reconciler performs no read or write and only backs off. -/
theorem c1_amended_lock_held_startup :
    chooseMode true true = StartMode.runContinuous
    ∧ modeExitsProcess (chooseMode true true) = false
    ∧ (∀ (window : Nat) (source : List Customer) (now : Int) (s : SyncState),
        pursuerTick window ⟨true, source, now⟩ s
          = { state := { s with pointer := none }, inserted := [], stored := none,
              fetched := [], flushed := false })
    ∧ (∀ (source : List Customer) (tc : Customer),
        updaterHandleData true source tc
          = { reads := [], writes := [], cursorClosed := true, backoffScheduled := true })
    ∧ updaterRun true = UpdaterStep.backoff3s :=
  ⟨rfl, rfl, fun _ _ _ _ => rfl, fun _ _ => rfl, rfl⟩

/-! Section: claim C2. -/

/-- C2, code bug: the acquire and release of the lock do not bracket the
failing path.  In src/app.ts lines 291-294 the await of fullReindex sits
between lockSync and unlockSync with no try or finally, so a rejection skips
unlockSync; the rejection is then swallowed by catch(console.debug) at line
306 and the process ends with exit code 0 and the lock file still present.
On the successful path the lock is released and the exit code is 0. -/
theorem c2_failing_reindex_keeps_lock :
    (fullReindexInvocation (Except.error "store failure in a phase")).lockHeldAtEnd = true
    ∧ (fullReindexInvocation (Except.error "store failure in a phase")).exitCode = 0
    ∧ (fullReindexInvocation (Except.ok ())).lockHeldAtEnd = false := by
  decide

/-! Section: claim C3. -/

/-- C3, counterexample: the claim says the transform returns a new record and
leaves its input unchanged; the code assigns the hashed fields back onto its
argument (src/app.ts lines 76-82) and returns that same object, so after a
call on the sample record the argument no longer equals its old value. -/
theorem c3_counterexample_argument_mutated :
    (anonymizeCustomerCall janeRec).argumentAfterCall ≠ janeRec := by
  decide

/-- C3, amended: the transform is deterministic, identical inputs always
yield identical outputs, but it is not pure in the claimed sense: it
overwrites the scrubbed fields on its input record in place and returns that
same record, so the returned object and the mutated argument coincide. -/
theorem c3_amended_deterministic_in_place :
    (∀ c : Customer,
        (anonymizeCustomerCall c).returned = (anonymizeCustomerCall c).argumentAfterCall)
    ∧ (∀ c d : Customer, c = d → anonymizeCustomer c = anonymizeCustomer d) :=
  ⟨fun _ => rfl, fun _ _ h => by rw [h]⟩

/-- C3, witness for the amended theorem at the sample record. -/
theorem c3_amended_witness :
    janeRec = janeRec ∧ anonymizeCustomer janeRec = anonymizeCustomer janeRec :=
  ⟨rfl, c3_amended_deterministic_in_place.2 janeRec janeRec rfl⟩

/-! Section: claim C4. -/

/-- C4, counterexample: for an email with two at-signs the domain part is not
preserved verbatim.  The destructuring of split("@") keeps only the segment
between the first and second at-sign, so for a@b@c the code produces domain
b while the claim asks for b@c. -/
theorem c4_counterexample_second_at_dropped :
    (anonymizeCustomer multiAtRec).email = hex "a" ++ "@" ++ "b"
    ∧ specLocalPart multiAtRec.email = "a"
    ∧ specDomainPart multiAtRec.email = "b@c"
    ∧ (anonymizeCustomer multiAtRec).email
        ≠ hex (specLocalPart multiAtRec.email) ++ "@" ++ specDomainPart multiAtRec.email := by
  decide

/-- C4, amended: for every record whose email contains exactly one at-sign
(split("@") yields exactly a local part l and a domain d), the result keeps
the identity id and the creation timestamp, replaces first name, last name,
address line1, line2 and postcode by the hex transform of their original
values, replaces the email by the transform of l with d preserved verbatim,
and passes city, state and country through unchanged; the hex transform
always produces 8 lowercase hexadecimal characters (truncated sha256, fixed
and non-salted).  With several at-signs only the segment between the first
and second at-sign survives as the domain. -/
theorem c4_amended_single_at_contract :
    (∀ (c : Customer) (l d : String), jsSplitAtSign c.email = [l, d] →
       anonymizeCustomer c = { c with
         firstName := hex c.firstName,
         lastName := hex c.lastName,
         email := hex l ++ "@" ++ d,
         address := { c.address with
           line1 := hex c.address.line1,
           line2 := hex c.address.line2,
           postcode := hex c.address.postcode } })
    ∧ (∀ s : String, (hex s).length = 8 ∧ isLowerHexString (hex s) = true) := by
  constructor
  · intro c l d h
    simp [anonymizeCustomer, h, jsStringOfUndefinable]
  · intro s
    exact ⟨hex_length s, hex_isLowerHexString s⟩

/-- C4, witness for the amended theorem at the sample record. -/
theorem c4_amended_witness :
    jsSplitAtSign janeRec.email = ["jane.doe", "example.com"]
    ∧ anonymizeCustomer janeRec = { janeRec with
        firstName := hex janeRec.firstName,
        lastName := hex janeRec.lastName,
        email := hex "jane.doe" ++ "@" ++ "example.com",
        address := { janeRec.address with
          line1 := hex janeRec.address.line1,
          line2 := hex janeRec.address.line2,
          postcode := hex janeRec.address.postcode } } :=
  ⟨by decide, c4_amended_single_at_contract.1 janeRec "jane.doe" "example.com" (by decide)⟩

/-! Section: claim C5. -/

/-- C5, counterexample: the claim says the Anonymizer fails fast on an email
without an at-sign; on the code no operation in the body throws, the
destructured host part is undefined and the template literal coerces it to
the text undefined, so the call returns normally, with the email replaced by
the digest of the whole original email followed by at-undefined. -/
theorem c5_counterexample_no_at_returns_ok :
    anonymizeCustomerE noAtRec = Except.ok (anonymizeCustomer noAtRec)
    ∧ (anonymizeCustomer noAtRec).email = "0bb9d27c@undefined"
    ∧ (anonymizeCustomer noAtRec).email = hex noAtRec.email ++ "@" ++ "undefined" := by
  refine ⟨rfl, by decide, by decide⟩

/-- C5, amended: applying the Anonymizer never raises an error.  On a record
whose email contains no at-sign it does not fail: it returns a record whose
email is the hex transform of the entire original email followed by the
literal text at-undefined; on any record the call returns normally. -/
theorem c5_amended_never_fails :
    (∀ c : Customer, anonymizeCustomerE c = Except.ok (anonymizeCustomer c))
    ∧ (∀ (c : Customer) (l : String), jsSplitAtSign c.email = [l] →
        anonymizeCustomer c = { c with
          firstName := hex c.firstName,
          lastName := hex c.lastName,
          email := hex l ++ "@" ++ "undefined",
          address := { c.address with
            line1 := hex c.address.line1,
            line2 := hex c.address.line2,
            postcode := hex c.address.postcode } }) := by
  constructor
  · intro c; rfl
  · intro c l h
    simp [anonymizeCustomer, h, jsStringOfUndefinable]

/-- C5, witness for the amended theorem at the record without an at-sign. -/
theorem c5_amended_witness :
    jsSplitAtSign noAtRec.email = ["nodomain"]
    ∧ anonymizeCustomer noAtRec = { noAtRec with
        firstName := hex noAtRec.firstName,
        lastName := hex noAtRec.lastName,
        email := hex "nodomain" ++ "@" ++ "undefined",
        address := { noAtRec.address with
          line1 := hex noAtRec.address.line1,
          line2 := hex noAtRec.address.line2,
          postcode := hex noAtRec.address.postcode } } :=
  ⟨by decide, c5_amended_never_fails.2 noAtRec "nodomain" (by decide)⟩

/-! Section: claim C6. -/

/-- C6, counterexample: the claim says the derived initial checkpoint for an
empty source equals the current time; the code applies the minus 60 seconds
after the fallback to the current time (src/app.ts lines 230-232), so with
now 1000000 the derived pointer is 940000, not 1000000. -/
theorem c6_counterexample_empty_source_minus_minute :
    loadPointer none [] 1000000 = some 940000
    ∧ (some 940000 : JSDate) ≠ (some 1000000 : JSDate) := by
  decide

/-- C6, amended: with no in-memory checkpoint and no checkpoint file, the
derived initial checkpoint is the creation timestamp of the oldest source
record minus 60 seconds when the source is non-empty (the oldest record is
the one findOne with ascending createdAt sort returns, minimal among all
source records), and the current time minus 60 seconds when the source is
empty. -/
theorem c6_amended_initial_pointer :
    (∀ (source : List Customer) (c : Customer) (now : Int),
       oldestByCreatedAt source = some c →
         loadPointer none source now = some (c.createdAt - 60000)
         ∧ ∀ d ∈ source, c.createdAt ≤ d.createdAt)
    ∧ (∀ now : Int, loadPointer none [] now = some (now - 60000)) := by
  constructor
  · intro source c now h
    refine ⟨?_, oldestByCreatedAt_min source c h⟩
    simp [loadPointer, h]
  · intro now
    rfl

/-- C6, witness for the amended theorem at a one-record source. -/
theorem c6_amended_witness :
    oldestByCreatedAt [janeRec] = some janeRec
    ∧ loadPointer none [janeRec] 0 = some (janeRec.createdAt - 60000)
    ∧ ∀ d ∈ [janeRec], janeRec.createdAt ≤ d.createdAt :=
  ⟨by decide, (c6_amended_initial_pointer.1 [janeRec] janeRec 0 (by decide)).1,
    (c6_amended_initial_pointer.1 [janeRec] janeRec 0 (by decide)).2⟩

/-! Section: claim C7. -/

/-- C7: on an unlocked tick the buffer is flushed exactly when it has
reached the window size after the fetch or it was already non-empty at the
start of the tick; a flush inserts the whole buffer into the target, stores
the createdAt of the last flushed record as the new checkpoint (in memory
and in the file), and clears the buffer.  In the concrete scenario of one
source record with creation timestamp T0, no checkpoint file and no lock,
the first tick derives pointer T0 minus 60 seconds and only buffers the
anonymized record without inserting; the second tick inserts exactly that
record, with hashed first and last name and hashed email local part, and
persists checkpoint T0. -/
theorem c7_flush_condition :
    (∀ (window : Nat) (i : TickIn) (s : SyncState), i.locked = false → 1 ≤ window →
       (((pursuerTick window i s).flushed = true)
          ↔ ((bufferAfterFetch window i s).length = window ∨ s.buffer ≠ []))
       ∧ ((pursuerTick window i s).flushed = true →
            (pursuerTick window i s).inserted = bufferAfterFetch window i s
            ∧ (pursuerTick window i s).state.buffer = []
            ∧ ∃ last : Customer,
                (bufferAfterFetch window i s).getLast? = some last
                ∧ (pursuerTick window i s).stored = some last.createdAt
                ∧ (pursuerTick window i s).state.pointer = some (some last.createdAt)
                ∧ (pursuerTick window i s).state.file = some (some last.createdAt)))
    ∧ (tick1.flushed = false ∧ tick1.inserted = [] ∧ tick1.stored = none
       ∧ tick1.state.pointer = some (some 1699999940000)
       ∧ tick1.state.buffer = [anonymizeCustomer janeRec]
       ∧ tick1.state.file = none
       ∧ tick2.flushed = true ∧ tick2.inserted = [anonymizeCustomer janeRec]
       ∧ tick2.stored = some 1700000000000
       ∧ tick2.state.file = some (some 1700000000000)
       ∧ tick2.state.buffer = []
       ∧ (anonymizeCustomer janeRec).firstName = hex "Jane"
       ∧ (anonymizeCustomer janeRec).lastName = hex "Doe"
       ∧ (anonymizeCustomer janeRec).email = hex "jane.doe" ++ "@" ++ "example.com"
       ∧ (anonymizeCustomer janeRec).createdAt = 1700000000000) := by
  refine ⟨fun window i s hlock hw => c7_general window i s hlock hw, ?_⟩
  decide

/-- C7, witness applying the general part at the scenario inputs. -/
theorem c7_flush_condition_witness :
    scenarioIn.locked = false ∧ 1 ≤ 1000
    ∧ (((pursuerTick 1000 scenarioIn freshStart).flushed = true)
        ↔ ((bufferAfterFetch 1000 scenarioIn freshStart).length = 1000
            ∨ freshStart.buffer ≠ [])) :=
  ⟨rfl, by norm_num, (c7_flush_condition.1 1000 scenarioIn freshStart rfl (by norm_num)).1⟩

/-! Section: claim C8. -/

/-- C8: within one continuous run started from a fresh Forward Syncer state
(no in-memory pointer, empty buffer, arbitrary initial checkpoint file) and
a positive window, with the checkpoint file mutated only by the Forward
Syncer itself, the sequence of values written to the Checkpoint Store is
non-decreasing from one write to the next, across arbitrary per-tick
sources, lock observations and clock values. -/
theorem c8_stored_monotone (window : Nat) (hw : 1 ≤ window) (is : List TickIn)
    (f0 : Option JSDate) :
    List.Chain' (fun a b => a ≤ b)
      ((runTicks window is { pointer := none, buffer := [], file := f0 }).stored) := by
  have h := runTicks_chain window hw is { pointer := none, buffer := [], file := f0 } none trivial
  simp only [Option.toList_none, List.nil_append] at h
  exact h.imp (fun a b hab => le_of_lt hab)

/-- C8, witness at a concrete two-tick run with window 1. -/
theorem c8_stored_monotone_witness :
    1 ≤ 1 ∧ List.Chain' (fun a b => a ≤ b)
      ((runTicks 1 [⟨false, [janeRec], 0⟩]
        { pointer := none, buffer := [], file := none }).stored) :=
  ⟨le_refl 1, c8_stored_monotone 1 (le_refl 1) [⟨false, [janeRec], 0⟩] none⟩

/-! Section: claim C9. -/

/-- C9: whenever the lock is observed held, neither actor writes the target:
a locked Forward Syncer tick fetches nothing, inserts nothing, stores no
checkpoint, discards the in-memory pointer and leaves buffer and file
untouched; a locked Reconciler data event issues no read and no write,
closes the cursor and schedules the backoff retry; run itself backs off. -/
theorem c9_locked_no_target_writes :
    (∀ (window : Nat) (source : List Customer) (now : Int) (s : SyncState),
       pursuerTick window ⟨true, source, now⟩ s
         = { state := { s with pointer := none }, inserted := [], stored := none,
             fetched := [], flushed := false })
    ∧ (∀ (source : List Customer) (tc : Customer),
       updaterHandleData true source tc
         = { reads := [], writes := [], cursorClosed := true, backoffScheduled := true })
    ∧ updaterRun true = UpdaterStep.backoff3s :=
  ⟨fun _ _ _ _ => rfl, fun _ _ => rfl, rfl⟩

/-! Section: claim C10. -/

/-- C10, counterexample: the claim says the forward query on the Invalid
Date pointer parsed from a garbage checkpoint file selects no records, so
the syncer fetches nothing and never flushes.  The bson serializer sends
the NaN time value of the Invalid Date as the epoch-0 datetime
(Long.fromNumber of NaN is 0), so the filter matches the post-1970 sample
record: the first unlocked tick fetches it, and the two-tick run flushes,
inserting it into the target and writing its timestamp to the checkpoint. -/
theorem c10_counterexample_garbage_file_still_flushes :
    loadPointer (some none) [janeRec] 0 = none
    ∧ mongoGtDate janeRec.createdAt none = true
    ∧ (pursuerTick 1000 ⟨false, [janeRec], 0⟩
        { pointer := none, buffer := [], file := some none }).fetched = [janeRec]
    ∧ (runTicks 1000 [⟨false, [janeRec], 0⟩, ⟨false, [janeRec], 0⟩]
        { pointer := none, buffer := [], file := some none }).stored ≠ []
    ∧ (runTicks 1000 [⟨false, [janeRec], 0⟩, ⟨false, [janeRec], 0⟩]
        { pointer := none, buffer := [], file := some none }).inserted ≠ [] := by
  decide

/-- C10, amended: loading the checkpoint is total for arbitrary file
contents: when the file exists but its contents do not parse as a
timestamp, loadPointer does not fail and yields the Invalid Date.  The
forward query does not select nothing, though: the driver serializes the
Invalid Date as the epoch-0 datetime, so the query behaves exactly as a
query with pointer epoch 0 and selects every record created after 1970;
the Forward Syncer fetches and flushes these normally, and the first flush
overwrites the in-memory pointer and the checkpoint file with the valid
creation timestamp of the last flushed record, rather than raising an
error. -/
theorem c10_amended_garbage_pointer_total :
    (∀ (source : List Customer) (now : Int), loadPointer (some none) source now = none)
    ∧ bsonDateMillis none = 0
    ∧ (∀ (source : List Customer) (window bufLen : Nat),
        mongoFetch source none window bufLen = mongoFetch source (some 0) window bufLen)
    ∧ (runTicks 1000 [⟨false, [janeRec], 0⟩, ⟨false, [janeRec], 0⟩]
        { pointer := none, buffer := [], file := some none }).stored = [1700000000000]
    ∧ (runTicks 1000 [⟨false, [janeRec], 0⟩, ⟨false, [janeRec], 0⟩]
        { pointer := none, buffer := [], file := some none }).inserted
        = [anonymizeCustomer janeRec]
    ∧ (runTicks 1000 [⟨false, [janeRec], 0⟩, ⟨false, [janeRec], 0⟩]
        { pointer := none, buffer := [], file := some none }).state.file
        = some (some 1700000000000)
    ∧ (runTicks 1000 [⟨false, [janeRec], 0⟩, ⟨false, [janeRec], 0⟩]
        { pointer := none, buffer := [], file := some none }).state.pointer
        = some (some 1700000000000) := by
  refine ⟨fun _ _ => rfl, rfl, fun _ _ _ => rfl, ?_, ?_, ?_, ?_⟩ <;> decide
